import Mathlib

/-!
Shallow embedding of the Solana-Treasure-Hunter worker-pool scripts
(src/index.js and the variant files src/unnamed/part_001 .. part_004).

The scripts share one structure: a main thread (Supervisor) loads a JSON
checkpoint (loadProgress), spawns workers with a snapshot of the tried set,
and routes worker messages to saveTriedSet / saveFoundWallet; each worker
loops drawing a random seed phrase (getRandomSeedPhrase), skipping phrases
in its snapshot, and probing the derived wallet (checkWallet).

Randomness and network probes are modelled as explicit input streams
(a list of random indices, a list of probe outcomes); file writes are
modelled as fields of the state holding the persisted content, updated at
the point the source calls writeFileSync.
-/

/-- One record stored in the triedWallets object of logs.json. -/
structure TriedRecord where
  seedPhrase : String
  pubkey : String
  balance : Nat
  timestamp : String
deriving DecidableEq

/-- The parsed content of the checkpoint file logs.json: the triedWallets
object (an association list keyed by the numeric wallet counter) and the
walletCounter field. -/
structure CheckpointData where
  triedWallets : List (Nat × TriedRecord)
  walletCounter : Nat
  lastUpdated : String
deriving DecidableEq

/-- Lookup in the triedWallets object, front to back, by numeric key. -/
def lookupW (key : Nat) : List (Nat × TriedRecord) → Option TriedRecord
  | [] => none
  | (k, r) :: rest => if k = key then some r else lookupW key rest

/-- Assignment triedWallets[key] = r on the modelled JS object: replaces the
record if the key is present, appends it otherwise. -/
def insertW (key : Nat) (r : TriedRecord) : List (Nat × TriedRecord) → List (Nat × TriedRecord)
  | [] => [(key, r)]
  | (k, q) :: rest => if k = key then (k, r) :: rest else (k, q) :: insertW key r rest

/-- In-memory state of the main thread owned by loadProgress / saveTriedSet,
together with the persisted content of logs.json (triedFile = none models a
missing or empty file). -/
structure MainState where
  triedWallets : List (Nat × TriedRecord)
  walletCounter : Nat
  triedFile : Option CheckpointData
deriving DecidableEq

/-- loadProgress of src/index.js lines 29-39: when the checkpoint file exists
and is non-empty, the in-memory triedWallets and walletCounter are taken from
it; the tried set is built as new Set(Object.keys(triedWallets)), i.e. from
the decimal string forms of the numeric counter keys. -/
def loadProgress (file : Option CheckpointData) : MainState :=
  match file with
  | some d => { triedWallets := d.triedWallets, walletCounter := d.walletCounter, triedFile := file }
  | none => { triedWallets := [], walletCounter := 0, triedFile := none }

/-- The tried set produced by loadProgress: Object.keys of the triedWallets
object, each numeric key rendered as its decimal string. -/
def loadedTriedSet (file : Option CheckpointData) : List String :=
  match file with
  | some d => d.triedWallets.map (fun p => toString p.fst)
  | none => []

/-- The membership test of the worker main loop, src/index.js line 183:
triedSet.has(seedPhrase) against the snapshot received in workerData. -/
def workerSkips (snapshot : List String) (phrase : String) : Bool :=
  snapshot.contains phrase

/-- saveTriedSet of src/index.js lines 41-52: increments walletCounter,
stores the new record under the incremented counter, and synchronously
rewrites logs.json with the updated object and counter before returning. -/
def saveTriedSet (st : MainState) (seedPhrase pubkey : String) (balance : Nat) (now : String) :
    MainState :=
  let counter := st.walletCounter + 1
  let r : TriedRecord := ⟨seedPhrase, pubkey, balance, now⟩
  let wallets := insertW counter r st.triedWallets
  { triedWallets := wallets, walletCounter := counter,
    triedFile := some ⟨wallets, counter, now⟩ }

/-- One entry of found.json. -/
structure FoundData where
  pubkey : String
  seed : String
  balance : Nat
deriving DecidableEq

/-- saveFoundWallet of src/index.js lines 54-69 (success path): reads the
existing found.json array (or starts a fresh one), pushes the new entry and
synchronously rewrites the file; the new persisted array is returned. -/
def saveFoundWallet (file : Option (List FoundData)) (pk seed : String) (bal : Nat) :
    List FoundData :=
  match file with
  | some ws => ws ++ [⟨pk, seed, bal⟩]
  | none => [⟨pk, seed, bal⟩]

/-- Outcome of one probe attempt of a worker: the getBalance call either
returns a balance or the attempt throws (timeout, rate limit, transient
network failure). -/
inductive ProbeOutcome where
  | ok (balance : Nat)
  | err
deriving DecidableEq

/-- A message a worker posts to the main thread via parentPort.postMessage. -/
inductive WMsg where
  | saveTriedMsg (seedPhrase pubkey : String) (balance : Nat)
  | saveFoundMsg (pubkey seedPhrase : String) (balance : Nat)
deriving DecidableEq

/-- Observable result of running checkWallet on a stream of probe outcomes:
the candidate probed at each loop iteration, the messages posted, whether
the worker called process.exit, and whether the function completed (false
means the outcome stream ran out while the retry loop was still going). -/
structure CheckResult where
  probes : List String
  msgs : List WMsg
  exited : Bool
  completed : Bool
deriving DecidableEq

/-- checkWallet of src/index.js lines 149-178: an unbounded retry loop on the
single phrase it was called with. Each iteration probes that phrase; on a
returned balance greater than zero it posts a saveFoundWallet message and
calls process.exit(0) (the saveTriedSet post below the conditional is never
reached); on a zero balance it posts a saveTriedSet message and breaks; on a
thrown error it posts nothing, sleeps a randomized delay, and retries the
same phrase. -/
def checkWallet (phrase pubkey : String) : List ProbeOutcome → CheckResult
  | [] => ⟨[], [], false, false⟩
  | ProbeOutcome.ok bal :: _ =>
      if 0 < bal then ⟨[phrase], [WMsg.saveFoundMsg pubkey phrase bal], true, true⟩
      else ⟨[phrase], [WMsg.saveTriedMsg phrase pubkey bal], false, true⟩
  | ProbeOutcome.err :: rest =>
      let r := checkWallet phrase pubkey rest
      ⟨phrase :: r.probes, r.msgs, r.exited, r.completed⟩

/-- checkWallet of src/unnamed/part_001 lines 112-129: a single attempt with
no retry loop. On a thrown error it logs, sleeps, and returns, so control
goes back to the generation loop. -/
def checkWalletP1 (phrase pubkey : String) : ProbeOutcome → CheckResult
  | ProbeOutcome.ok bal =>
      if 0 < bal then ⟨[phrase], [WMsg.saveFoundMsg pubkey phrase bal], true, true⟩
      else ⟨[phrase], [WMsg.saveTriedMsg phrase pubkey bal], false, true⟩
  | ProbeOutcome.err => ⟨[phrase], [], false, true⟩

/-- Full supervisor state: the tried side (logs.json) and the persisted
content of found.json. -/
structure SupState where
  main : MainState
  foundFile : Option (List FoundData)
deriving DecidableEq

/-- The message handler of src/index.js lines 111-117: saveTriedSet messages
go to saveTriedSet, saveFoundWallet messages to saveFoundWallet. -/
def applyMsg (now : String) (st : SupState) : WMsg → SupState
  | WMsg.saveTriedMsg p pk b => { st with main := saveTriedSet st.main p pk b now }
  | WMsg.saveFoundMsg pk p b => { st with foundFile := some (saveFoundWallet st.foundFile pk p b) }

/-- Sequential processing of a list of worker messages by the supervisor. -/
def applyMsgs (now : String) (st : SupState) (msgs : List WMsg) : SupState :=
  msgs.foldl (applyMsg now) st

/-- Side effects a supervisor message handler can perform, in order. -/
inductive SupAction where
  | appendTried
  | appendFound
  | terminateWorkers
  | exitProcess
deriving DecidableEq

/-- Action trace of the src/index.js message handler (lines 111-117): either
kind of message only appends to the corresponding ledger; no termination of
workers and no process exit is ever issued. -/
def indexOnMessage : WMsg → List SupAction
  | WMsg.saveTriedMsg _ _ _ => [SupAction.appendTried]
  | WMsg.saveFoundMsg _ _ _ => [SupAction.appendFound]

/-- Action trace of the src/unnamed/part_001 message handler (lines 78-86):
a saveFoundWallet message first runs the synchronous saveFoundWallet append,
then terminates every worker, then exits the process. -/
def part001OnMessage : WMsg → List SupAction
  | WMsg.saveTriedMsg _ _ _ => [SupAction.appendTried]
  | WMsg.saveFoundMsg _ _ _ =>
      [SupAction.appendFound, SupAction.terminateWorkers, SupAction.exitProcess]

/-- The selected-indices loop of getRandomSeedPhrase: while the accumulator
holds fewer than k indices, draw the next index from the random stream and
add it if new. Returns none when the stream is exhausted before k distinct
indices were collected (the real loop would still be running). -/
def genLoop (k : Nat) : List Nat → List Nat → Option (List Nat)
  | acc, stream =>
    if k ≤ acc.length then some acc
    else
      match stream with
      | [] => none
      | i :: rest => genLoop k (if i ∈ acc then acc else acc ++ [i]) rest

/-- getRandomSeedPhrase of src/index.js lines 75-82, the randomness made
explicit as a stream of draws Math.floor(Math.random() * seeds.length): the
distinct selected indices, in insertion order, mapped through the vocabulary
and joined with single spaces. -/
def getRandomSeedPhrase (seeds : List String) (k : Nat) (stream : List Nat) : Option String :=
  (genLoop k [] stream).map (fun idxs => String.intercalate " " (idxs.map (fun i => seeds.getD i "")))

/-- One record accumulated by the part_002 supervisor before a batch flush. -/
structure TriedItem where
  seedPhrase : String
  pubkey : String
  balance : Nat
deriving DecidableEq

/-- State of the part_002 supervisor: the in-memory batch buffer and the
rows actually persisted in the tried_wallets table. -/
structure BatchState where
  batchData : List TriedItem
  dbTried : List TriedItem
deriving DecidableEq

/-- flushBatch of src/unnamed/part_002 lines 59-71: an empty batch is a
no-op; otherwise the batch INSERT is issued and batchData is cleared
unconditionally — when the INSERT errors the callback only logs, so the
cleared records are never persisted and never retried. -/
def flushBatch (st : BatchState) (writeOk : Bool) : BatchState :=
  if st.batchData = [] then st
  else if writeOk then ⟨[], st.dbTried ++ st.batchData⟩
  else ⟨[], st.dbTried⟩

/-- The saveTriedSet branch of the part_002 message handler (lines 106-112):
push the record onto batchData and flush only once the batch reaches
batchSize = 100. -/
def pushTried (st : BatchState) (item : TriedItem) (writeOk : Bool) : BatchState :=
  let st1 : BatchState := ⟨st.batchData ++ [item], st.dbTried⟩
  if 100 ≤ st1.batchData.length then flushBatch st1 writeOk else st1

/-- saveFoundWallet of src/index.js with its surrounding try/catch made
explicit: processes a list of found records each tagged with whether the
read/write succeeds; on failure the catch block only logs, the record is
dropped, and the handler keeps processing subsequent records. -/
def processFound (file : Option (List FoundData)) : List (FoundData × Bool) → Option (List FoundData)
  | [] => file
  | (item, ok) :: rest =>
      let file1 := if ok then some (saveFoundWallet file item.pubkey item.seed item.balance) else file
      processFound file1 rest

/-- The randomized backoff of src/index.js line 175: after a probe failure
the worker sleeps 5000 + Math.floor(Math.random() * 5000) milliseconds,
where the jitter draw lies in [0, 5000). -/
def failureDelay (jitter : Nat) : Nat :=
  5000 + jitter

/-- The successive backoff delays produced by a run of probe failures with
the given jitter draws. -/
def failureDelays (jitters : List Nat) : List Nat :=
  jitters.map failureDelay

/-! Helper lemmas about the triedWallets association list and the
selected-indices loop. -/

theorem lookupW_insertW_self (key : Nat) (r : TriedRecord) :
    ∀ l : List (Nat × TriedRecord), lookupW key (insertW key r l) = some r := by
  intro l
  induction l with
  | nil => simp [insertW, lookupW]
  | cons q rest ih =>
      obtain ⟨k1, r1⟩ := q
      by_cases h : k1 = key
      · simp [insertW, lookupW, h]
      · simpa [insertW, lookupW, h] using ih

theorem lookupW_insertW_ne (key k : Nat) (r : TriedRecord) (hne : k ≠ key) :
    ∀ l : List (Nat × TriedRecord), lookupW k (insertW key r l) = lookupW k l := by
  intro l
  have hne2 : key ≠ k := Ne.symm hne
  induction l with
  | nil => simp [insertW, lookupW, hne2]
  | cons q rest ih =>
      obtain ⟨k1, r1⟩ := q
      by_cases h : k1 = key
      · simp [insertW, lookupW, h, hne2]
      · by_cases h2 : k1 = k
        · simp [insertW, lookupW, h, h2, hne]
        · simpa [insertW, lookupW, h, h2] using ih

theorem insertW_length_of_fresh (key : Nat) (r : TriedRecord) :
    ∀ l : List (Nat × TriedRecord), (∀ q ∈ l, q.1 ≠ key) →
      (insertW key r l).length = l.length + 1 := by
  intro l
  induction l with
  | nil => intro _; simp [insertW]
  | cons q rest ih =>
      intro h
      obtain ⟨k1, r1⟩ := q
      have hq : k1 ≠ key := h (k1, r1) (by simp)
      have hrec : (insertW key r rest).length = rest.length + 1 :=
        ih (fun p hp => h p (by simp [hp]))
      simp [insertW, hq, hrec]

theorem genLoop_eq_none (k : Nat) :
    ∀ (stream acc : List Nat) (N : Nat), N < k → acc.Nodup →
      (∀ a ∈ acc, a < N) → (∀ i ∈ stream, i < N) →
      genLoop k acc stream = none := by
  intro stream
  induction stream with
  | nil =>
      intro acc N hNk hnd hacc _
      have hsub : acc ⊆ List.range N := fun a ha => List.mem_range.mpr (hacc a ha)
      have hlen : acc.length ≤ N := by simpa using (hnd.subperm hsub).length_le
      have hnk : ¬ k ≤ acc.length := by omega
      simp [genLoop, hnk]
  | cons i rest ih =>
      intro acc N hNk hnd hacc hstream
      have hsub : acc ⊆ List.range N := fun a ha => List.mem_range.mpr (hacc a ha)
      have hlen : acc.length ≤ N := by simpa using (hnd.subperm hsub).length_le
      have hnk : ¬ k ≤ acc.length := by omega
      rw [genLoop]
      simp only [if_neg hnk]
      by_cases hmem : i ∈ acc
      · simp only [if_pos hmem]
        exact ih acc N hNk hnd hacc (fun j hj => hstream j (List.mem_cons_of_mem _ hj))
      · simp only [if_neg hmem]
        refine ih (acc ++ [i]) N hNk ?_ ?_ (fun j hj => hstream j (List.mem_cons_of_mem _ hj))
        · simp [List.nodup_append, hnd, hmem]
        · intro a ha
          rcases List.mem_append.mp ha with h | h
          · exact hacc a h
          · have hai : a = i := by simpa using h
            rw [hai]
            exact hstream i (by simp)

/-! Claim theorems. -/

/-- Claim C1. The dedup property fails on the code: saveTriedSet records a
probed phrase under the numeric counter key, but loadProgress rebuilds the
tried set from Object.keys, i.e. from the decimal counter strings. For a
checkpoint holding one record of a twelve-word phrase under key 1, the
loaded tried set is exactly the list of key strings, and the worker
membership test does not skip the recorded phrase, so a worker probes it
again in the next run. -/
theorem loadProgress_triedSet_misses_recorded_phrase :
    let r : TriedRecord :=
      ⟨"abandon ability able about above absent absorb abstract absurd abuse access accident",
       "PK1", 0, "t0"⟩
    let cp : CheckpointData := ⟨[(1, r)], 1, "t0"⟩
    lookupW 1 (loadProgress (some cp)).triedWallets = some r ∧
    loadedTriedSet (some cp) = ["1"] ∧
    workerSkips (loadedTriedSet (some cp)) r.seedPhrase = false := by
  decide

/-- Claim C2. Processing a Found message in the src/index.js supervisor only
appends the found record: its action trace contains no worker termination
and no process exit, so the pool does not halt (only the discovering worker
thread stops itself). The part_001 supervisor, by contrast, performs the
synchronous append first and only then terminates the workers and exits. -/
theorem indexSupervisor_found_no_pool_halt (pk phrase : String) (bal : Nat) :
    indexOnMessage (WMsg.saveFoundMsg pk phrase bal) = [SupAction.appendFound] ∧
    SupAction.terminateWorkers ∉ indexOnMessage (WMsg.saveFoundMsg pk phrase bal) ∧
    SupAction.exitProcess ∉ indexOnMessage (WMsg.saveFoundMsg pk phrase bal) ∧
    part001OnMessage (WMsg.saveFoundMsg pk phrase bal) =
      [SupAction.appendFound, SupAction.terminateWorkers, SupAction.exitProcess] := by
  refine ⟨rfl, ?_, ?_, rfl⟩ <;> simp [indexOnMessage]

/-- Claim C3, counterexample. In the part_002 variant the saveTriedSet
handler is not durable on return: pushing the first tried record leaves it
in the in-memory batchData buffer and the persisted tried table stays empty,
even with a healthy storage backend. -/
theorem part002_batch_buffers_tried_record :
    pushTried ⟨[], []⟩ ⟨"p1", "k1", 0⟩ true = ⟨[⟨"p1", "k1", 0⟩], []⟩ ∧
    (⟨"p1", "k1", 0⟩ : TriedItem) ∉ (pushTried ⟨[], []⟩ ⟨"p1", "k1", 0⟩ true).dbTried := by
  decide

/-- Claim C3, amended. In the writeFileSync-based variants the appends are
synchronous and durable on return: after saveTriedSet the persisted
checkpoint file holds the new record under the incremented counter, and
after saveFoundWallet the persisted found array contains the new entry. -/
theorem writeFileSync_variants_persist_on_return (st : MainState) (p pk now : String) (b : Nat)
    (file : Option (List FoundData)) (fpk fseed : String) (fbal : Nat) :
    (∃ cp : CheckpointData, (saveTriedSet st p pk b now).triedFile = some cp ∧
      lookupW (st.walletCounter + 1) cp.triedWallets = some ⟨p, pk, b, now⟩ ∧
      cp.walletCounter = st.walletCounter + 1) ∧
    (⟨fpk, fseed, fbal⟩ : FoundData) ∈ saveFoundWallet file fpk fseed fbal := by
  constructor
  · refine ⟨⟨insertW (st.walletCounter + 1) ⟨p, pk, b, now⟩ st.triedWallets,
      st.walletCounter + 1, now⟩, rfl, ?_, rfl⟩
    exact lookupW_insertW_self _ _ _
  · cases file <;> simp [saveFoundWallet]

/-- Claim C4. When every probe outcome for a candidate is a thrown
(recoverable) error, checkWallet posts no message at all, so the supervisor
applies nothing and both durable ledgers are unchanged: the candidate is not
recorded as tried and stays eligible. -/
theorem failed_probe_leaves_ledger_unchanged (phrase pubkey now : String)
    (outcomes : List ProbeOutcome) (st : SupState)
    (h : outcomes.all (fun o => decide (o = ProbeOutcome.err)) = true) :
    (checkWallet phrase pubkey outcomes).msgs = [] ∧
    applyMsgs now st (checkWallet phrase pubkey outcomes).msgs = st := by
  have hmsgs : (checkWallet phrase pubkey outcomes).msgs = [] := by
    induction outcomes with
    | nil => rfl
    | cons o rest ih =>
        have ho : o = ProbeOutcome.err := by
          have := (List.all_eq_true.mp h) o (by simp)
          simpa using this
        have hrest : rest.all (fun o => decide (o = ProbeOutcome.err)) = true := by
          refine List.all_eq_true.mpr ?_
          intro x hx
          exact (List.all_eq_true.mp h) x (by simp [hx])
        subst ho
        simpa [checkWallet] using ih hrest
  exact ⟨hmsgs, by rw [hmsgs]; rfl⟩

/-- Claim C4, witness: two consecutive probe failures for one phrase emit no
message and leave an initial supervisor state untouched. -/
theorem failed_probe_leaves_ledger_unchanged_witness :
    ([ProbeOutcome.err, ProbeOutcome.err].all (fun o => decide (o = ProbeOutcome.err)) = true) ∧
    (checkWallet "w1 w2" "PK" [ProbeOutcome.err, ProbeOutcome.err]).msgs = [] ∧
    applyMsgs "t0" ⟨⟨[], 0, none⟩, none⟩
      (checkWallet "w1 w2" "PK" [ProbeOutcome.err, ProbeOutcome.err]).msgs
      = ⟨⟨[], 0, none⟩, none⟩ :=
  ⟨by decide,
   (failed_probe_leaves_ledger_unchanged "w1 w2" "PK" "t0"
     [ProbeOutcome.err, ProbeOutcome.err] ⟨⟨[], 0, none⟩, none⟩ (by decide)).1,
   (failed_probe_leaves_ledger_unchanged "w1 w2" "PK" "t0"
     [ProbeOutcome.err, ProbeOutcome.err] ⟨⟨[], 0, none⟩, none⟩ (by decide)).2⟩

/-- When the requested phrase length k exceeds the vocabulary size,
getRandomSeedPhrase never terminates: no matter how long the stream of valid
random draws, the set of selected indices can never reach k distinct
elements, so the generation loop never completes and no configuration error
is ever raised. -/
theorem getRandomSeedPhrase_hangs_when_k_gt_N (seeds : List String) (k : Nat)
    (stream : List Nat) (hk : seeds.length < k)
    (hs : stream.all (fun i => decide (i < seeds.length)) = true) :
    getRandomSeedPhrase seeds k stream = none := by
  have hstream : ∀ i ∈ stream, i < seeds.length := by
    intro i hi
    have := (List.all_eq_true.mp hs) i hi
    simpa using this
  have hloop : genLoop k [] stream = none :=
    genLoop_eq_none k stream [] seeds.length hk (by simp) (by simp) hstream
  simp [getRandomSeedPhrase, hloop]

/-- Claim C5. Evaluating the generation loop at the failing configuration, a
five-word vocabulary with k = 12: an arbitrarily chosen stream of valid
random draws produces no candidate — the loop is still running when the
draws run out, and it can never finish, so no configuration error is raised
and startup hangs instead of failing fast. -/
theorem getRandomSeedPhrase_hangs_on_small_vocab :
    (["w1", "w2", "w3", "w4", "w5"] : List String).length < 12 ∧
    ([0, 1, 2, 3, 4, 0, 1, 2, 3, 4] : List Nat).all
      (fun i => decide (i < (["w1", "w2", "w3", "w4", "w5"] : List String).length)) = true ∧
    getRandomSeedPhrase ["w1", "w2", "w3", "w4", "w5"] 12 [0, 1, 2, 3, 4, 0, 1, 2, 3, 4] = none :=
  ⟨by decide, by decide,
   getRandomSeedPhrase_hangs_when_k_gt_N ["w1", "w2", "w3", "w4", "w5"] 12
     [0, 1, 2, 3, 4, 0, 1, 2, 3, 4] (by decide) (by decide)⟩

/-- Claim C6, counterexample. A candidate whose probe returns a positive
balance produces only a saveFoundWallet message: process.exit(0) runs before
the saveTriedSet post, so no Tried message accompanies the Found message. -/
theorem found_candidate_emits_no_tried_msg :
    (checkWallet "w1 w2" "PK" [ProbeOutcome.ok 7]).msgs = [WMsg.saveFoundMsg "PK" "w1 w2" 7] ∧
    WMsg.saveTriedMsg "w1 w2" "PK" 7 ∉ (checkWallet "w1 w2" "PK" [ProbeOutcome.ok 7]).msgs := by
  decide

/-- Claim C6, amended. For a successfully probed candidate checkWallet emits
exactly one message: a saveFoundWallet message (followed by process exit)
when the balance is positive, and a saveTriedSet message when the balance is
zero; a found candidate never also produces a Tried message. -/
theorem checkWallet_emission_cases (phrase pubkey : String) (b : Nat)
    (rest : List ProbeOutcome) :
    checkWallet phrase pubkey (ProbeOutcome.ok (b + 1) :: rest)
      = ⟨[phrase], [WMsg.saveFoundMsg pubkey phrase (b + 1)], true, true⟩ ∧
    checkWallet phrase pubkey (ProbeOutcome.ok 0 :: rest)
      = ⟨[phrase], [WMsg.saveTriedMsg phrase pubkey 0], false, true⟩ := by
  constructor <;> simp [checkWallet]

/-- Claim C7, counterexample. After a failed probe the src/index.js worker
probes the very same candidate again: with one error followed by a zero
balance, checkWallet probes its phrase twice and then completes, instead of
returning to the generation loop for a fresh candidate. -/
theorem checkWallet_retries_same_candidate :
    (checkWallet "pa" "PK" [ProbeOutcome.err, ProbeOutcome.ok 0]).probes = ["pa", "pa"] ∧
    (checkWallet "pa" "PK" [ProbeOutcome.err, ProbeOutcome.ok 0]).completed = true ∧
    (checkWallet "pa" "PK" [ProbeOutcome.err, ProbeOutcome.ok 0]).msgs
      = [WMsg.saveTriedMsg "pa" "PK" 0] := by
  decide

/-- Claim C7, amended. The src/index.js checkWallet only ever probes the one
candidate it was called with — every entry of its probe trace is that
phrase, however many failures precede success — while the part_001 variant
performs a single attempt: on a failure it emits nothing and returns, so its
caller draws a fresh random candidate. -/
theorem checkWallet_probes_only_its_candidate (phrase pubkey : String)
    (outs : List ProbeOutcome) :
    (checkWallet phrase pubkey outs).probes
      = List.replicate (checkWallet phrase pubkey outs).probes.length phrase ∧
    checkWalletP1 phrase pubkey ProbeOutcome.err = ⟨[phrase], [], false, true⟩ := by
  refine ⟨?_, rfl⟩
  induction outs with
  | nil => rfl
  | cons o rest ih =>
      cases o with
      | ok bal =>
          by_cases hb : 0 < bal <;> simp [checkWallet, hb]
      | err =>
          have hstep : (checkWallet phrase pubkey (ProbeOutcome.err :: rest)).probes
              = phrase :: (checkWallet phrase pubkey rest).probes := rfl
          rw [hstep]
          simp only [List.length_cons, List.replicate_succ]
          exact congrArg (List.cons phrase) ih

/-- Claim C8, counterexample. A storage write failure is dropped, not
retried: a found record whose write fails is simply lost while the handler
keeps accepting and persisting later outcomes, and a failing batch INSERT in
part_002 clears the buffered records without persisting them. -/
theorem storage_failure_drops_record_and_continues :
    processFound none [(⟨"A", "sa", 5⟩, false), (⟨"B", "sb", 7⟩, true)] = some [⟨"B", "sb", 7⟩] ∧
    (⟨"A", "sa", 5⟩ : FoundData) ∉ [(⟨"B", "sb", 7⟩ : FoundData)] ∧
    flushBatch ⟨[⟨"p1", "k1", 0⟩], []⟩ false = ⟨[], []⟩ := by
  decide

/-- Claim C8, amended. On a storage write error the code only logs and moves
on: a failed found append leaves the found file exactly as it was while
later messages are still processed, and a failed flushBatch leaves the tried
table unchanged while still clearing the in-memory batch, so the records are
lost with no retry and no halt. -/
theorem storage_failure_no_retry_no_halt (file : Option (List FoundData)) (item : FoundData)
    (rest : List (FoundData × Bool)) (st : BatchState) :
    processFound file ((item, false) :: rest) = processFound file rest ∧
    (flushBatch st false).dbTried = st.dbTried ∧
    (flushBatch st false).batchData = [] := by
  refine ⟨by simp [processFound], ?_, ?_⟩ <;>
    by_cases h : st.batchData = [] <;> simp [flushBatch, h]

/-- Claim C9, counterexample. The failure delays are independent draws, not a
monotone shared state: jitters 4999 then 0 (both valid draws below 5000)
yield delays 9999 then 5000, a strictly decreasing consecutive pair. -/
theorem failureDelays_not_monotone :
    failureDelays [4999, 0] = [9999, 5000] ∧ 5000 < 9999 ∧ 4999 < 5000 := by
  decide

/-- Claim C9, amended. Each probe failure sleeps an independently drawn
delay of 5000 + jitter milliseconds with jitter below 5000: every such delay
lies in the band [5000, 10000), but consecutive delays may decrease and no
cross-failure maximum is kept. -/
theorem failureDelay_bounds (jitter : Nat) (h : jitter < 5000) :
    5000 ≤ failureDelay jitter ∧ failureDelay jitter < 10000 := by
  unfold failureDelay
  omega

/-- Claim C9 witness: the delay for jitter 1234 lies in the band. -/
theorem failureDelay_bounds_witness :
    1234 < 5000 ∧ 5000 ≤ failureDelay 1234 ∧ failureDelay 1234 < 10000 :=
  ⟨by decide, (failureDelay_bounds 1234 (by decide)).1, (failureDelay_bounds 1234 (by decide)).2⟩

/-- Claim C10. Under the invariant that every stored key is at most the
current counter (which loadProgress and saveTriedSet maintain), saveTriedSet
increments the counter by exactly one, stores the new record under the
incremented counter, grows the object by exactly one entry, and leaves every
previously readable key bound to the same record. -/
theorem saveTriedSet_frame (st : MainState) (p pk now : String) (b : Nat)
    (h : st.triedWallets.all (fun q => decide (q.1 ≤ st.walletCounter)) = true) :
    (saveTriedSet st p pk b now).walletCounter = st.walletCounter + 1 ∧
    lookupW (st.walletCounter + 1) (saveTriedSet st p pk b now).triedWallets
      = some ⟨p, pk, b, now⟩ ∧
    (saveTriedSet st p pk b now).triedWallets.length = st.triedWallets.length + 1 ∧
    ∀ key : Nat, key ≤ st.walletCounter →
      lookupW key (saveTriedSet st p pk b now).triedWallets = lookupW key st.triedWallets := by
  have hkeys : ∀ q ∈ st.triedWallets, q.1 ≤ st.walletCounter := by
    intro q hq
    have := (List.all_eq_true.mp h) q hq
    simpa using this
  refine ⟨rfl, lookupW_insertW_self _ _ _, ?_, ?_⟩
  · exact insertW_length_of_fresh _ _ _ (fun q hq => by have := hkeys q hq; omega)
  · intro key hkey
    exact lookupW_insertW_ne _ _ _ (by omega) _

/-- Claim C10 witness: saving one record over a one-record state with
counter 1 yields counter 2, the new record under key 2, two entries, and the
old record still readable under key 1. -/
theorem saveTriedSet_frame_witness :
    (([(1, (⟨"x", "y", 0, "t0"⟩ : TriedRecord))] : List (Nat × TriedRecord)).all
      (fun q => decide (q.1 ≤ 1)) = true) ∧
    (saveTriedSet ⟨[(1, ⟨"x", "y", 0, "t0"⟩)], 1, none⟩ "p" "k" 0 "t1").walletCounter = 2 ∧
    lookupW 2 (saveTriedSet ⟨[(1, ⟨"x", "y", 0, "t0"⟩)], 1, none⟩ "p" "k" 0 "t1").triedWallets
      = some ⟨"p", "k", 0, "t1"⟩ ∧
    (saveTriedSet ⟨[(1, ⟨"x", "y", 0, "t0"⟩)], 1, none⟩ "p" "k" 0 "t1").triedWallets.length = 2 ∧
    lookupW 1 (saveTriedSet ⟨[(1, ⟨"x", "y", 0, "t0"⟩)], 1, none⟩ "p" "k" 0 "t1").triedWallets
      = lookupW 1 [(1, ⟨"x", "y", 0, "t0"⟩)] :=
  ⟨by decide,
   (saveTriedSet_frame ⟨[(1, ⟨"x", "y", 0, "t0"⟩)], 1, none⟩ "p" "k" "t1" 0 (by decide)).1,
   (saveTriedSet_frame ⟨[(1, ⟨"x", "y", 0, "t0"⟩)], 1, none⟩ "p" "k" "t1" 0 (by decide)).2.1,
   (saveTriedSet_frame ⟨[(1, ⟨"x", "y", 0, "t0"⟩)], 1, none⟩ "p" "k" "t1" 0 (by decide)).2.2.1,
   (saveTriedSet_frame ⟨[(1, ⟨"x", "y", 0, "t0"⟩)], 1, none⟩ "p" "k" "t1" 0
     (by decide)).2.2.2 1 (by decide)⟩
